import Mathlib

/-!
Shallow embedding of the firefly-karmada-manager controller-manager core
(`cmd/firefly-karmada-manager/app`) and of the clusterpedia internal-storage
dispatch (`pkg/controller/clusterpedia`).

Pure data flow is embedded directly; the sequential statement order of the
`Run` orchestrator and of its per-epoch `run` closure is embedded as an
event trace, so that temporal claims ("X happens strictly before Y") become
index-ordering facts about the trace.  External library behaviour that the
code's results depend on (apimachinery's `ParseGroupVersion`) is embedded
faithfully from its source.
-/

namespace Firefly

/-! Group-version and resource identifiers (k8s.io/apimachinery schema). -/

structure GroupVersion where
  group : String
  version : String
deriving DecidableEq, Repr

structure GroupVersionResource where
  group : String
  version : String
  resource : String
deriving DecidableEq, Repr

/-- Embeds `GroupVersion.WithResource` from apimachinery. -/
def GroupVersion.withResource (gv : GroupVersion) (resource : String) : GroupVersionResource :=
  ⟨gv.group, gv.version, resource⟩

/-- Embeds apimachinery's `schema.ParseGroupVersion`: the empty string and
the bare slash parse to the empty group-version; a string with no slash is a
bare version; a string with exactly one slash splits at it into group and
version; more than one slash is an error. -/
def ParseGroupVersion (gv : String) : Except String GroupVersion :=
  if gv = "" ∨ gv = "/" then Except.ok ⟨"", ""⟩
  else
    match ((gv.toList.filter (fun c => c = '/')).length) with
    | 0 => Except.ok ⟨"", gv⟩
    | 1 => Except.ok ⟨(gv.toList.takeWhile (fun c => c ≠ '/')).asString,
                      ((gv.toList.dropWhile (fun c => c ≠ '/')).drop 1).asString⟩
    | _ => Except.error ("unexpected GroupVersion string: " ++ gv)

/-- One element of the slice returned by `ServerGroupsAndResources`:
a group-version string together with the names of the resources it serves. -/
structure APIResourceList where
  groupVersion : String
  apiResources : List String
deriving DecidableEq, Repr

/-- Result of a discovery client's `ServerGroupsAndResources` call: the
resource lists that were returned, and the (possibly partial-failure) error
returned alongside them. -/
structure DiscoveryInput where
  resourceMap : List APIResourceList
  err : Option String
deriving DecidableEq, Repr

/-- Embeds the accumulation loop of `GetAvailableResources`
(`part_000:432-441`): each list's group-version string is parsed (a parse
failure aborts with that error) and every resource name in the list is added
to the accumulated set. -/
def collectResources : List APIResourceList → List GroupVersionResource →
    Except String (List GroupVersionResource)
  | [], acc => Except.ok acc
  | l :: rest, acc =>
    match ParseGroupVersion l.groupVersion with
    | Except.error e => Except.error e
    | Except.ok gv => collectResources rest (acc ++ l.apiResources.map gv.withResource)

/-- Embeds `GetAvailableResources` (`part_000:423-444`).  The error returned
by `ServerGroupsAndResources` is only handed to `utilruntime.HandleError`
(logged) and never influences the result; an empty resource map is a hard
error; otherwise the returned lists are folded into the resource set. -/
def GetAvailableResources (client : DiscoveryInput) : Except String (List GroupVersionResource) :=
  if client.resourceMap.length = 0 then
    Except.error "unable to get any supported resources from server"
  else
    collectResources client.resourceMap []

/-- Resource set a well-formed resource map denotes, list by list; used to
state what `GetAvailableResources` returns on success. -/
def expectedResources : List APIResourceList → List GroupVersionResource
  | [] => []
  | l :: rest =>
    (match ParseGroupVersion l.groupVersion with
     | Except.ok gv => l.apiResources.map gv.withResource
     | Except.error _ => []) ++ expectedResources rest

/-! Controller supervisor (`StartControllers`, `part_000:529-576`). -/

/-- Capabilities of a non-nil `controller.Interface` handle.  The outer
`Option` records whether the handle implements the optional interface
(`controller.Debuggable` or `controller.HealthCheckable`); the inner
`Option` records whether the method returns a non-nil value.  A health
checker is identified by a numeric id. -/
structure Handle where
  debugHandler : Option (Option Unit)
  healthChecker : Option (Option Nat)
deriving DecidableEq, Repr

/-- Observable outcome of invoking one controller's `InitFunc`: the returned
handle (nil or not), the `started` flag, and the returned error. -/
structure InitOutcome where
  ctrl : Option Handle
  started : Bool
  err : Option String
deriving DecidableEq, Repr

/-- A health check as registered with the mutable healthz handler: either
the default named ping check or the controller's own named health checker. -/
inductive HealthCheck
  | namedPing (name : String)
  | namedHealth (name : String) (checker : Nat)
deriving DecidableEq, Repr

/-- Result of a `StartControllers` call.  `invoked` lists, in order, the
controllers whose initializer was actually invoked; `mounted` lists the
debug paths mounted on the unsecured mux; `result` is `Except.ok checks`
when the loop completed, `healthzHandler.AddHealthChecker(checks...)` was
called with the accumulated checks and nil was returned, and
`Except.error e` when an initializer error caused the early return (before
any health check was registered). -/
structure StartResult where
  invoked : List String
  mounted : List String
  result : Except String (List HealthCheck)
deriving Repr

/-- Embeds the debug-capability branch of the supervisor loop
(`part_000:556-562`): when the handle implements `Debuggable`, the mux is
present, and the debugging handler is non-nil, the two debug paths are
mounted. -/
def handleMounts (hasMux : Bool) (name : String) (h : Handle) : List String :=
  match h.debugHandler with
  | some (some _) =>
    if hasMux then
      ["/debug/controllers/" ++ name, "/debug/controllers/" ++ name ++ "/"]
    else []
  | _ => []

/-- Embeds the health-capability branch of the supervisor loop
(`part_000:552-567`): the check starts as the named ping check and is
replaced by the controller's own named health checker exactly when the
handle implements `HealthCheckable` with a non-nil checker. -/
def handleCheck (name : String) (h : Handle) : HealthCheck :=
  match h.healthChecker with
  | some (some c) => HealthCheck.namedHealth name c
  | _ => HealthCheck.namedPing name

/-- Embeds the `for controllerName, initFn := range controllers` loop of
`StartControllers` over the iteration sequence of the registry, with the
accumulated invoked names, mounted debug paths and health checks as
arguments: a disabled controller is skipped without being invoked; an
initializer error returns immediately with that error; `started = false`
skips the controller after invocation; otherwise exactly one health check
is accumulated (the jittered sleep before each invocation does not affect
any result and is not modelled). -/
def startControllersLoop (enabled : String → Bool) (hasMux : Bool) :
    List (String × InitOutcome) → List String → List String → List HealthCheck → StartResult
  | [], inv, m, ch => ⟨inv, m, Except.ok ch⟩
  | (name, o) :: rest, inv, m, ch =>
    if enabled name then
      match o.err with
      | some e => ⟨inv ++ [name], m, Except.error e⟩
      | none =>
        if o.started then
          match o.ctrl with
          | some h =>
            startControllersLoop enabled hasMux rest (inv ++ [name])
              (m ++ handleMounts hasMux name h) (ch ++ [handleCheck name h])
          | none =>
            startControllersLoop enabled hasMux rest (inv ++ [name])
              m (ch ++ [HealthCheck.namedPing name])
        else
          startControllersLoop enabled hasMux rest (inv ++ [name]) m ch
    else
      startControllersLoop enabled hasMux rest inv m ch

/-- Embeds `StartControllers` (`part_000:529-576`).  `enabled` is
`controllerCtx.IsControllerEnabled`; `hasMux` records whether
`unsecuredMux` is non-nil; the registry is given as its iteration
sequence. -/
def StartControllers (enabled : String → Bool) (hasMux : Bool)
    (controllers : List (String × InitOutcome)) : StartResult :=
  startControllersLoop enabled hasMux controllers [] [] []

/-- Names of the controllers the loop invokes, in order: the enabled
entries of the registry sequence. -/
def invokedOf (enabled : String → Bool) (cs : List (String × InitOutcome)) : List String :=
  (cs.filter (fun p => enabled p.1)).map Prod.fst

/-- Health check the specification assigns to one started controller: its
own health checker when the handle implements the health-checkable
capability with a non-nil checker, otherwise the default named ping check
(also for a nil handle). -/
def specCheck (name : String) (o : InitOutcome) : HealthCheck :=
  match o.ctrl with
  | some h =>
    match h.healthChecker with
    | some (some c) => HealthCheck.namedHealth name c
    | _ => HealthCheck.namedPing name
  | none => HealthCheck.namedPing name

/-- Health checks the specification predicts for a registry sequence:
exactly one check per enabled controller whose initializer reported
`started = true`, in order. -/
def checksOf (enabled : String → Bool) (cs : List (String × InitOutcome)) : List HealthCheck :=
  cs.filterMap (fun p => if enabled p.1 && p.2.started then some (specCheck p.1 p.2) else none)

/-- Debug paths the loop mounts for a registry sequence. -/
def mountsOf (enabled : String → Bool) (hasMux : Bool)
    (cs : List (String × InitOutcome)) : List String :=
  cs.flatMap (fun p =>
    if enabled p.1 && p.2.started then
      match p.2.ctrl with
      | some h => handleMounts hasMux p.1 h
      | none => []
    else [])

/-! Controller context construction (`CreateControllerContext`,
`part_000:449-527`). -/

/-- Observable fields of the `ControllerContext` the constructor fills from
its inputs. -/
structure MControllerContext where
  availableResources : List GroupVersionResource
  hostClusterAvailableResources : List GroupVersionResource
  estimatorNamespace : String
  karmadaName : String
deriving DecidableEq, Repr

/-- Zero value `ControllerContext{}` returned on every failure path. -/
def zeroControllerContext : MControllerContext := ⟨[], [], "", ""⟩

/-- Embeds `CreateControllerContext` (`part_000:449-527`) as the Go pair
`(ControllerContext, error)`.  The two `WaitForAPIServer` calls are
abstracted to their success booleans (in source order: karmada cluster
first, then firefly/host cluster); the two discovery calls run `
GetAvailableResources` on the karmada and host discovery clients; every
failure path returns the zero context together with the error. -/
def CreateControllerContext (estimatorNamespace karmadaName : String)
    (waitKarmadaOk waitFireflyOk : Bool)
    (karmadaDiscovery hostDiscovery : DiscoveryInput) : MControllerContext × Option String :=
  if waitKarmadaOk = false then
    (zeroControllerContext, some "failed to wait for apiserver being healthy")
  else if waitFireflyOk = false then
    (zeroControllerContext, some "failed to wait for apiserver being healthy")
  else
    match GetAvailableResources karmadaDiscovery with
    | Except.error e => (zeroControllerContext, some e)
    | Except.ok availableResources =>
      match GetAvailableResources hostDiscovery with
      | Except.error e => (zeroControllerContext, some e)
      | Except.ok hostResources =>
        (⟨availableResources, hostResources, estimatorNamespace, karmadaName⟩, none)

/-! Per-epoch run closure (`run`, `part_000:199-220`), embedded as its
sequential event trace. -/

/-- Events of the per-epoch `run` closure, in program order: context
construction, `klog.Fatalf` aborts, each invoked controller initializer,
each informer factory's `Start` call, the `close(InformersStarted)`
statement, and the final block on `ctx.Done()`. -/
inductive RunEvent
  | createContext
  | contextFatal
  | initController (name : String)
  | controllerStartFatal
  | factoryStart (factory : String)
  | closeInformersStarted
  | waitCtxDone
deriving DecidableEq, Repr

/-- The eight informer factories whose `Start` the run closure invokes, in
source order (`part_000:209-216`). -/
def factoryNames : List String :=
  ["KarmadaDynamicInformerFactory", "KarmadaKubeInformerFactory", "KarmadaInformerFactory",
   "KarmadaFireflyInformerFactory", "FireflyDynamicInformerFactory",
   "FireflyKubeInformerFactory", "FireflyInformerFactory", "ObjectOrMetadataInformerFactory"]

/-- Embeds the `run` closure (`part_000:199-220`) as its event trace:
`CreateControllerContext` failure is fatal; otherwise `StartControllers`
runs to completion (its invoked initializers appear in order), an
initializer error is fatal, and only on success are the eight factory
`Start` routines invoked, followed by the `close(InformersStarted)`
statement and the block on `ctx.Done()`.  The `InformersStarted` channel is
created fresh inside `CreateControllerContext`, so the single close
statement acts on a not-yet-closed channel. -/
def runEpochTrace (ctxOk : Bool) (enabled : String → Bool) (hasMux : Bool)
    (registry : List (String × InitOutcome)) : List RunEvent :=
  if ctxOk = false then [RunEvent.createContext, RunEvent.contextFatal]
  else
    RunEvent.createContext ::
      ((StartControllers enabled hasMux registry).invoked.map RunEvent.initController) ++
      (match (StartControllers enabled hasMux registry).result with
       | Except.error _ => [RunEvent.controllerStartFatal]
       | Except.ok _ =>
         factoryNames.map RunEvent.factoryStart ++
           [RunEvent.closeInformersStarted, RunEvent.waitCtxDone])

/-! Main goroutine of `Run` (`part_000:159-295`), embedded as its
sequential event trace. -/

/-- Events of `Run`'s own goroutine, in program order.  `mainElectSpawn`
and `migrationElectSpawn` are the `go leaderElectAndRun` statements that
begin the main-lock and migration-lock elections; `recvMigrationReady` is
the completed receive on `leaderMigrator.MigrationReady` (which only
completes after the main lock's migration-ready signal has fired). -/
inductive MainEvent
  | serveFailReturn
  | runDirect
  | hostnameErrReturn
  | mainElectSpawn
  | recvMigrationReady
  | migrationElectSpawn
  | recvStop
deriving DecidableEq, Repr

/-- Embeds the main goroutine of `Run` (`part_000:159-295`): a secure-
serving failure returns early; without leader election the epoch runs
inline; a hostname failure returns early; otherwise the main-lock election
is spawned, and when leader migration is enabled the goroutine blocks on
`MigrationReady` and only then spawns the migration-lock election, before
blocking on the stop channel. -/
def runMainTrace (secureServing serveOk leaderElect hostnameOk migrationEnabled : Bool) :
    List MainEvent :=
  if secureServing = true ∧ serveOk = false then [MainEvent.serveFailReturn]
  else if leaderElect = false then [MainEvent.runDirect]
  else if hostnameOk = false then [MainEvent.hostnameErrReturn]
  else
    MainEvent.mainElectSpawn ::
      ((if migrationEnabled then [MainEvent.recvMigrationReady, MainEvent.migrationElectSpawn]
        else []) ++ [MainEvent.recvStop])

/-! Resync period generator (`ResyncPeriod`, `part_000:148-156`). -/

/-- Conversion of a rational to `time.Duration`, i.e. Go's float-to-int64
conversion, which truncates toward zero. -/
def truncQ (q : ℚ) : ℤ := if q < 0 then Int.ceil q else Int.floor q

/-- Embeds one invocation of the closure returned by `ResyncPeriod`
(`part_000:151-156`): `minResyncNs` is
`MinResyncPeriod.Nanoseconds()` and `randFloat` the value drawn by
`rand.Float64()` (modelled exactly, in `[0,1)`); the factor is the draw
plus one and the product is truncated into a duration. -/
def ResyncPeriod (minResyncNs : ℤ) (randFloat : ℚ) : ℤ :=
  truncQ ((minResyncNs : ℚ) * (randFloat + 1))

/-! Command argument validation (`NewControllerManagerCommand`,
`part_000:124-131`). -/

/-- Error message of the `Args` validator: it names the command path and
the full argument list. -/
def argsErrMsg (cmdPath : String) (args : List String) : String :=
  "\"" ++ cmdPath ++ "\" does not take any arguments, got " ++ toString args

/-- Embeds the `for _, arg := range args` loop of the `Args` validator: the
first argument of positive length aborts with the error naming the full
list; a list whose members are all empty passes. -/
def argsLoop (cmdPath : String) (all : List String) : List String → Option String
  | [] => none
  | a :: rest =>
    if 0 < a.length then some (argsErrMsg cmdPath all) else argsLoop cmdPath all rest

/-- Embeds the command's `Args` function (`part_000:124-131`): `none` means
the nil error (acceptance), `some msg` the rejection error. -/
def commandArgsValidate (cmdPath : String) (args : List String) : Option String :=
  argsLoop cmdPath args args

/-! Clusterpedia internal-storage dispatch
(`pkg/controller/clusterpedia/clusterpedia_internelstorage.go`). -/

structure PostgresSpec where
  Local : Option Unit
deriving DecidableEq, Repr

structure MySQLSpec where
  Local : Option Unit
deriving DecidableEq, Repr

structure StorageSpec where
  Postgres : Option PostgresSpec
  MySQL : Option MySQLSpec
deriving DecidableEq, Repr

structure ClusterpediaSpec where
  Storage : StorageSpec
deriving DecidableEq, Repr

structure Clusterpedia where
  Spec : ClusterpediaSpec
deriving DecidableEq, Repr

/-- First switch condition: `storage.Postgres != nil && storage.Postgres.Local != nil`. -/
def hasLocalPostgres (s : StorageSpec) : Bool :=
  match s.Postgres with
  | some pg => pg.Local.isSome
  | none => false

/-- Second switch condition: `storage.MySQL != nil && storage.MySQL.Local != nil`. -/
def hasLocalMySQL (s : StorageSpec) : Bool :=
  match s.MySQL with
  | some my => my.Local.isSome
  | none => false

/-- Embeds `EnsureInternalStorage`: the Go `switch` takes the Postgres case
first, the MySQL case second, and falls through to the "unknown storage
type" error.  The results of `EnsurePostgres` and `EnsureMySQL` (out of
scope per the specification) are abstracted to the errors they return. -/
def EnsureInternalStorage (ensurePostgresResult ensureMySQLResult : Option String)
    (clusterpedia : Clusterpedia) : Option String :=
  if hasLocalPostgres clusterpedia.Spec.Storage then ensurePostgresResult
  else if hasLocalMySQL clusterpedia.Spec.Storage then ensureMySQLResult
  else some "unknown storage type"

/-! Fixtures used by the concrete witnesses below. -/

/-- Initializer outcome of a controller that starts with a nil handle. -/
def initOk : InitOutcome := ⟨none, true, none⟩

/-- Initializer outcome of a controller that declines to run. -/
def initDeclined : InitOutcome := ⟨none, false, none⟩

/-- Initializer outcome of a controller whose construction fails. -/
def initFailed (e : String) : InitOutcome := ⟨none, true, some e⟩

/-! Generic helpers about indices in appended lists, used to settle the
temporal claims about event traces. -/

/-- Index of an element absent from the left part of an append lies in the
right part. -/
theorem getElem_append_not_mem_left {α : Type} (l1 l2 : List α) (i : ℕ) (x : α)
    (h : (l1 ++ l2)[i]? = some x) (hx : x ∉ l1) :
    l1.length ≤ i ∧ l2[i - l1.length]? = some x := by
  by_cases hi : i < l1.length
  · rw [List.getElem?_append_left hi] at h
    exact absurd (List.getElem?_mem h) hx
  · rw [List.getElem?_append_right (Nat.le_of_not_lt hi)] at h
    exact ⟨Nat.le_of_not_lt hi, h⟩

/-- Index of an element absent from the right part of an append lies in the
left part. -/
theorem getElem_append_not_mem_right {α : Type} (l1 l2 : List α) (i : ℕ) (x : α)
    (h : (l1 ++ l2)[i]? = some x) (hx : x ∉ l2) :
    i < l1.length ∧ l1[i]? = some x := by
  by_cases hi : i < l1.length
  · rw [List.getElem?_append_left hi] at h
    exact ⟨hi, h⟩
  · rw [List.getElem?_append_right (Nat.le_of_not_lt hi)] at h
    exact absurd (List.getElem?_mem h) hx

/-! Supervisor loop lemmas. -/

/-- When no enabled controller's initializer errors, the supervisor loop
runs to completion, invoking exactly the enabled controllers, mounting their
debug paths and registering one health check per started controller. -/
theorem startControllersLoop_ok (enabled : String → Bool) (hasMux : Bool)
    (cs : List (String × InitOutcome))
    (h : ∀ p ∈ cs, enabled p.1 = true → p.2.err = none) :
    ∀ inv m ch, startControllersLoop enabled hasMux cs inv m ch =
      ⟨inv ++ invokedOf enabled cs, m ++ mountsOf enabled hasMux cs,
       Except.ok (ch ++ checksOf enabled cs)⟩ := by
  induction cs with
  | nil =>
    intro inv m ch
    simp [startControllersLoop, invokedOf, mountsOf, checksOf]
  | cons p rest ih =>
    obtain ⟨name, o⟩ := p
    intro inv m ch
    have hrest : ∀ q ∈ rest, enabled q.1 = true → q.2.err = none :=
      fun q hq => h q (List.mem_cons_of_mem _ hq)
    cases he : enabled name with
    | true =>
      have herr : o.err = none := h (name, o) (List.mem_cons_self _ _) he
      cases hs : o.started with
      | true =>
        cases hc : o.ctrl with
        | some hh =>
          simp [startControllersLoop, he, herr, hs, hc, ih hrest, invokedOf, mountsOf,
            checksOf, specCheck, handleCheck, List.append_assoc]
        | none =>
          simp [startControllersLoop, he, herr, hs, hc, ih hrest, invokedOf, mountsOf,
            checksOf, specCheck, List.append_assoc]
      | false =>
        simp [startControllersLoop, he, herr, hs, ih hrest, invokedOf, mountsOf,
          checksOf, List.append_assoc]
    | false =>
      simp [startControllersLoop, he, ih hrest, invokedOf, mountsOf, checksOf]

/-- When the first enabled controller whose initializer errors sits after an
error-free portion of the registry, the loop stops at it with its error. -/
theorem startControllersLoop_err (enabled : String → Bool) (hasMux : Bool)
    (cs1 : List (String × InitOutcome)) (name : String) (o : InitOutcome) (e : String)
    (cs2 : List (String × InitOutcome))
    (h1 : ∀ p ∈ cs1, enabled p.1 = true → p.2.err = none)
    (h2 : enabled name = true) (h3 : o.err = some e) :
    ∀ inv m ch, startControllersLoop enabled hasMux (cs1 ++ (name, o) :: cs2) inv m ch =
      ⟨inv ++ invokedOf enabled cs1 ++ [name], m ++ mountsOf enabled hasMux cs1,
       Except.error e⟩ := by
  induction cs1 with
  | nil =>
    intro inv m ch
    simp [startControllersLoop, h2, h3, invokedOf, mountsOf]
  | cons p rest ih =>
    obtain ⟨pname, po⟩ := p
    intro inv m ch
    have hrest : ∀ q ∈ rest, enabled q.1 = true → q.2.err = none :=
      fun q hq => h1 q (List.mem_cons_of_mem _ hq)
    cases he : enabled pname with
    | true =>
      have herr : po.err = none := h1 (pname, po) (List.mem_cons_self _ _) he
      cases hs : po.started with
      | true =>
        cases hc : po.ctrl with
        | some hh =>
          simp [startControllersLoop, he, herr, hs, hc, ih hrest, invokedOf, mountsOf,
            List.append_assoc]
        | none =>
          simp [startControllersLoop, he, herr, hs, hc, ih hrest, invokedOf, mountsOf,
            List.append_assoc]
      | false =>
        simp [startControllersLoop, he, herr, hs, ih hrest, invokedOf, mountsOf,
          List.append_assoc]
    | false =>
      simp [startControllersLoop, he, ih hrest, invokedOf, mountsOf]

/-- C1: if the registry's iteration sequence reaches an enabled controller
whose initializer returns a non-nil error (all previously invoked
initializers having succeeded), `StartControllers` returns that same
error, the invoked initializers are exactly the enabled ones before it plus
the failing one itself — no later initializer is invoked — and, the result
being the early-return error, the health handler registration
(`AddHealthChecker`) never executes on that path. -/
theorem startControllers_error_short_circuits (enabled : String → Bool) (hasMux : Bool)
    (cs1 : List (String × InitOutcome)) (name : String) (o : InitOutcome) (e : String)
    (cs2 : List (String × InitOutcome))
    (h1 : ∀ p ∈ cs1, enabled p.1 = true → p.2.err = none)
    (h2 : enabled name = true) (h3 : o.err = some e) :
    (StartControllers enabled hasMux (cs1 ++ (name, o) :: cs2)).result = Except.error e ∧
    (StartControllers enabled hasMux (cs1 ++ (name, o) :: cs2)).invoked
      = invokedOf enabled cs1 ++ [name] := by
  rw [StartControllers, startControllersLoop_err enabled hasMux cs1 name o e cs2 h1 h2 h3]
  simp

/-- C1 witness: a 3-entry registry whose 2nd entry errors stops at the 2nd
entry with its error; the 3rd initializer is never invoked. -/
theorem startControllers_error_short_circuits_witness :
    (StartControllers (fun _ => true) true
        ([("a", initOk)] ++ ("b", initFailed "boom") :: [("c", initOk)])).result
      = Except.error "boom" ∧
    (StartControllers (fun _ => true) true
        ([("a", initOk)] ++ ("b", initFailed "boom") :: [("c", initOk)])).invoked
      = ["a", "b"] := by
  have h := startControllers_error_short_circuits (fun _ => true) true
    [("a", initOk)] "b" (initFailed "boom") "boom" [("c", initOk)]
    (by intro p hp _; rw [List.mem_singleton] at hp; subst hp; rfl) rfl rfl
  simpa using h

/-- C3: on a registry where no enabled controller's initializer errors,
`StartControllers` returns nil and registers exactly one health check per
enabled controller that reported `started = true` — the controller's own
health checker when its handle implements the health-checkable capability
with a non-nil checker, the default named ping check otherwise (also for a
nil handle); disabled controllers and controllers that declined to start
contribute no check and no error. -/
theorem startControllers_health_checks (enabled : String → Bool) (hasMux : Bool)
    (cs : List (String × InitOutcome))
    (h : ∀ p ∈ cs, enabled p.1 = true → p.2.err = none) :
    (StartControllers enabled hasMux cs).result = Except.ok (checksOf enabled cs) := by
  rw [StartControllers, startControllersLoop_ok enabled hasMux cs h]
  simp

/-- C3 witness: the registry where controller "a" starts with a nil handle
and controller "b" declines yields exactly the ping check for "a" and a nil
error. -/
theorem startControllers_health_checks_witness :
    (StartControllers (fun _ => true) false [("a", initOk), ("b", initDeclined)]).result
      = Except.ok [HealthCheck.namedPing "a"] := by
  have h := startControllers_health_checks (fun _ => true) false
    [("a", initOk), ("b", initDeclined)]
    (by intro p hp _; fin_cases hp <;> rfl)
  simpa using h

/-- C4: in the per-epoch run trace, a factory `Start` invocation can only
occur when `StartControllers` has completed without error, and every
initializer invocation strictly precedes every factory `Start`
invocation. -/
theorem runEpoch_initializers_before_factories (ctxOk : Bool) (enabled : String → Bool)
    (hasMux : Bool) (registry : List (String × InitOutcome)) (j : ℕ) (f : String)
    (hj : (runEpochTrace ctxOk enabled hasMux registry)[j]? = some (RunEvent.factoryStart f)) :
    (∃ checks, (StartControllers enabled hasMux registry).result = Except.ok checks) ∧
    ∀ i n, (runEpochTrace ctxOk enabled hasMux registry)[i]? = some (RunEvent.initController n) →
      i < j := by
  cases hctx : ctxOk with
  | false =>
    rw [hctx] at hj
    have hm := List.getElem?_mem hj
    simp [runEpochTrace] at hm
  | true =>
    rw [hctx] at hj
    cases hres : (StartControllers enabled hasMux registry).result with
    | error e =>
      have hm := List.getElem?_mem hj
      simp [runEpochTrace, hres] at hm
    | ok checks =>
      have hT : runEpochTrace true enabled hasMux registry
          = (RunEvent.createContext ::
              (StartControllers enabled hasMux registry).invoked.map RunEvent.initController) ++
            (factoryNames.map RunEvent.factoryStart ++
              [RunEvent.closeInformersStarted, RunEvent.waitCtxDone]) := by
        simp [runEpochTrace, hres]
      rw [hT] at hj
      refine ⟨⟨checks, rfl⟩, ?_⟩
      intro i n hi
      rw [hT] at hi
      have hjb := getElem_append_not_mem_left _ _ j _ hj (by simp)
      have hia := getElem_append_not_mem_right _ _ i _ hi (by simp [factoryNames])
      exact lt_of_lt_of_le hia.1 hjb.1

/-- C4 witness: in the epoch whose registry holds the single controller
"a", `StartControllers` succeeded and every initializer event precedes
index 2, where the first factory `Start` sits. -/
theorem runEpoch_initializers_before_factories_witness :
    (∃ checks, (StartControllers (fun _ => true) false [("a", initOk)]).result
        = Except.ok checks) ∧
    ∀ i n, (runEpochTrace true (fun _ => true) false [("a", initOk)])[i]?
        = some (RunEvent.initController n) → i < 2 :=
  runEpoch_initializers_before_factories true (fun _ => true) false [("a", initOk)] 2
    "KarmadaDynamicInformerFactory" rfl

/-- C5 counterexample: with a successfully built context and an empty
registry, the run trace invokes the first informer factory's `Start`
routine at index 1, strictly before the `close(InformersStarted)` statement
at index 9 — refuting the claim that no factory start routine is invoked
before the gate-closing statement executes. -/
theorem runEpoch_factory_start_before_close_counterexample :
    (runEpochTrace true (fun _ => true) false [])[1]?
        = some (RunEvent.factoryStart "KarmadaDynamicInformerFactory") ∧
    (runEpochTrace true (fun _ => true) false [])[9]?
        = some RunEvent.closeInformersStarted ∧ (1 : ℕ) < 9 :=
  ⟨rfl, rfl, by omega⟩

/-- Index of the gate-close event inside the two-event tail of the run
trace. -/
theorem closeWait_index (k : ℕ)
    (h : ([RunEvent.closeInformersStarted, RunEvent.waitCtxDone] : List RunEvent)[k]?
      = some RunEvent.closeInformersStarted) : k = 0 := by
  rcases k with _ | _ | k
  · rfl
  · simp at h
  · simp at h

/-- C5 amended: in every per-epoch run trace the `close(InformersStarted)`
statement executes at most once (the gate is a fresh channel per context,
so the single close cannot panic), and every informer factory `Start`
invocation strictly precedes the gate-closing statement — the reverse of
the claimed order. -/
theorem runEpoch_factories_precede_gate_close (ctxOk : Bool) (enabled : String → Bool)
    (hasMux : Bool) (registry : List (String × InitOutcome)) :
    (∀ (i j : ℕ), (runEpochTrace ctxOk enabled hasMux registry)[i]?
          = some RunEvent.closeInformersStarted →
        (runEpochTrace ctxOk enabled hasMux registry)[j]?
          = some RunEvent.closeInformersStarted → i = j) ∧
    (∀ (i : ℕ) (f : String) (j : ℕ), (runEpochTrace ctxOk enabled hasMux registry)[i]?
          = some (RunEvent.factoryStart f) →
        (runEpochTrace ctxOk enabled hasMux registry)[j]?
          = some RunEvent.closeInformersStarted → i < j) := by
  cases hctx : ctxOk with
  | false =>
    constructor
    · intro i j hi hj
      have hm := List.getElem?_mem hi
      simp [runEpochTrace] at hm
    · intro i f j hi hj
      have hm := List.getElem?_mem hi
      simp [runEpochTrace] at hm
  | true =>
    cases hres : (StartControllers enabled hasMux registry).result with
    | error e =>
      constructor
      · intro i j hi hj
        have hm := List.getElem?_mem hi
        simp [runEpochTrace, hres] at hm
      · intro i f j hi hj
        have hm := List.getElem?_mem hj
        simp [runEpochTrace, hres] at hm
    | ok checks =>
      have hT : runEpochTrace true enabled hasMux registry
          = ((RunEvent.createContext ::
              (StartControllers enabled hasMux registry).invoked.map RunEvent.initController) ++
              factoryNames.map RunEvent.factoryStart) ++
            [RunEvent.closeInformersStarted, RunEvent.waitCtxDone] := by
        simp [runEpochTrace, hres]
      have hclosePos : ∀ k, (runEpochTrace true enabled hasMux registry)[k]?
          = some RunEvent.closeInformersStarted →
          k = ((RunEvent.createContext ::
              (StartControllers enabled hasMux registry).invoked.map RunEvent.initController) ++
              factoryNames.map RunEvent.factoryStart).length := by
        intro k hk
        rw [hT] at hk
        have hkb := getElem_append_not_mem_left _ _ k _ hk (by simp [factoryNames])
        have hk0 := closeWait_index _ hkb.2
        omega
      constructor
      · intro i j hi hj
        rw [hclosePos i hi, hclosePos j hj]
      · intro i f j hi hj
        rw [hT] at hi
        have hia := getElem_append_not_mem_right _ _ i _ hi (by simp)
        have hjp := hclosePos j hj
        omega

/-- C5 amended witness: with an empty registry, the first factory start at
index 1 precedes the gate close at index 9. -/
theorem runEpoch_factories_precede_gate_close_witness :
    (runEpochTrace true (fun _ => true) true [])[1]?
        = some (RunEvent.factoryStart "KarmadaDynamicInformerFactory") ∧ (1 : ℕ) < 9 :=
  ⟨rfl, (runEpoch_factories_precede_gate_close true (fun _ => true) true []).2 1
    "KarmadaDynamicInformerFactory" 9 rfl rfl⟩

/-- C6: on every path through `Run`'s main goroutine, the statement that
begins the migration-lock election is preceded by the completed receive on
the `MigrationReady` channel — the migration lock is never attempted before
the main lock's migration-ready signal has fired. -/
theorem runMain_migration_elect_after_ready (secureServing serveOk leaderElect hostnameOk
    migrationEnabled : Bool) (i : ℕ)
    (h : (runMainTrace secureServing serveOk leaderElect hostnameOk migrationEnabled)[i]?
      = some MainEvent.migrationElectSpawn) :
    ∃ j, j < i ∧
      (runMainTrace secureServing serveOk leaderElect hostnameOk migrationEnabled)[j]?
        = some MainEvent.recvMigrationReady := by
  by_cases hss : secureServing = true ∧ serveOk = false
  · simp [runMainTrace, hss] at h
    rcases i with _ | i <;> simp at h
  · cases hle : leaderElect with
    | false =>
      simp [runMainTrace, hss, hle] at h
      rcases i with _ | i <;> simp at h
    | true =>
      cases hho : hostnameOk with
      | false =>
        simp [runMainTrace, hss, hle, hho] at h
        rcases i with _ | i <;> simp at h
      | true =>
        cases hme : migrationEnabled with
        | false =>
          simp [runMainTrace, hss, hle, hho, hme] at h
          rcases i with _ | _ | i <;> simp at h
        | true =>
          have hT : runMainTrace secureServing serveOk true true true
              = [MainEvent.mainElectSpawn, MainEvent.recvMigrationReady,
                 MainEvent.migrationElectSpawn, MainEvent.recvStop] := by
            simp [runMainTrace, hss]
          rw [hle, hho, hme] at h
          rw [hT] at h ⊢
          rcases i with _ | _ | _ | _ | i <;> simp at h
          exact ⟨1, by omega, rfl⟩

/-- C6 witness: with leader election and migration enabled, the
migration-lock election spawned at index 2 is preceded by the
migration-ready receive at index 1. -/
theorem runMain_migration_elect_after_ready_witness :
    ∃ j, j < 2 ∧ (runMainTrace false true true true true)[j]?
      = some MainEvent.recvMigrationReady :=
  runMain_migration_elect_after_ready false true true true true 2 rfl

/-! Discovery lemmas. -/

/-- Membership in the denoted resource set of a resource map. -/
theorem mem_expectedResources (rm : List APIResourceList) (gvr : GroupVersionResource) :
    gvr ∈ expectedResources rm ↔
      ∃ l ∈ rm, ∃ gv, ParseGroupVersion l.groupVersion = Except.ok gv ∧
        ∃ name ∈ l.apiResources, gvr = gv.withResource name := by
  induction rm with
  | nil => simp [expectedResources]
  | cons l rest ih =>
    constructor
    · intro h
      rw [expectedResources] at h
      rcases List.mem_append.mp h with h1 | h2
      · cases hpv : ParseGroupVersion l.groupVersion with
        | ok gv =>
          rw [hpv] at h1
          rcases List.mem_map.mp h1 with ⟨name, hn, heq⟩
          exact ⟨l, List.mem_cons_self _ _, gv, hpv, name, hn, heq.symm⟩
        | error e =>
          rw [hpv] at h1
          simp at h1
      · rcases ih.mp h2 with ⟨l', hl', gv, hgv, name, hn, heq⟩
        exact ⟨l', List.mem_cons_of_mem _ hl', gv, hgv, name, hn, heq⟩
    · rintro ⟨l', hl', gv, hgv, name, hn, heq⟩
      rw [expectedResources]
      rcases List.mem_cons.mp hl' with rfl | hl'
      · refine List.mem_append.mpr (Or.inl ?_)
        rw [hgv]
        exact List.mem_map.mpr ⟨name, hn, heq.symm⟩
      · exact List.mem_append.mpr (Or.inr (ih.mpr ⟨l', hl', gv, hgv, name, hn, heq⟩))

/-- On a resource map whose group-version strings all parse, the
accumulation loop succeeds with the denoted resource set. -/
theorem collectResources_ok (rm : List APIResourceList)
    (hp : ∀ l ∈ rm, ∃ gv, ParseGroupVersion l.groupVersion = Except.ok gv) :
    ∀ acc, collectResources rm acc = Except.ok (acc ++ expectedResources rm) := by
  induction rm with
  | nil =>
    intro acc
    simp [collectResources, expectedResources]
  | cons l rest ih =>
    intro acc
    obtain ⟨gv, hgv⟩ := hp l (List.mem_cons_self _ _)
    have hrest : ∀ x ∈ rest, ∃ gv, ParseGroupVersion x.groupVersion = Except.ok gv :=
      fun x hx => hp x (List.mem_cons_of_mem _ hx)
    simp only [collectResources, hgv, ih hrest, expectedResources]
    simp [List.append_assoc]

/-- C2 amended: the discovery error returned alongside a non-empty
resource map never influences the result (it is only logged); when every
returned group-version string is well-formed, `GetAvailableResources`
errors exactly on the empty resource map, and on success the returned set
holds precisely the group-version-resources of the returned lists.
(Without the well-formedness hypothesis an unparsable group-version string
is a further error case; see the counterexample.) -/
theorem getAvailableResources_error_iff (rm : List APIResourceList) (e1 e2 : Option String)
    (hp : ∀ l ∈ rm, ∃ gv, ParseGroupVersion l.groupVersion = Except.ok gv) :
    GetAvailableResources ⟨rm, e1⟩ = GetAvailableResources ⟨rm, e2⟩ ∧
    ((∃ msg, GetAvailableResources ⟨rm, e1⟩ = Except.error msg) ↔ rm = []) ∧
    (∀ rs, GetAvailableResources ⟨rm, e1⟩ = Except.ok rs →
      ∀ gvr, gvr ∈ rs ↔ ∃ l ∈ rm, ∃ gv, ParseGroupVersion l.groupVersion = Except.ok gv ∧
        ∃ name ∈ l.apiResources, gvr = gv.withResource name) := by
  refine ⟨rfl, ?_, ?_⟩
  · cases rm with
    | nil =>
      exact ⟨fun _ => rfl,
        fun _ => ⟨"unable to get any supported resources from server", rfl⟩⟩
    | cons a t =>
      constructor
      · rintro ⟨msg, hmsg⟩
        have hshape : GetAvailableResources ⟨a :: t, e1⟩ = collectResources (a :: t) [] := by
          simp [GetAvailableResources]
        rw [hshape, collectResources_ok (a :: t) hp []] at hmsg
        exact absurd hmsg (by simp)
      · intro h
        exact absurd h (by simp)
  · intro rs hrs gvr
    cases rm with
    | nil => simp [GetAvailableResources] at hrs
    | cons a t =>
      have hshape : GetAvailableResources ⟨a :: t, e1⟩
          = Except.ok (expectedResources (a :: t)) := by
        simp [GetAvailableResources, collectResources_ok (a :: t) hp []]
      rw [hshape] at hrs
      injection hrs with hrs
      subst hrs
      exact mem_expectedResources (a :: t) gvr

/-- C2 counterexample: a discovery reply with a non-empty resource map whose
single group-version string is malformed ("a/b/c") makes
`GetAvailableResources` return an error, refuting "returns an error exactly
when the resource map is empty". -/
theorem getAvailableResources_malformed_counterexample :
    ([⟨"a/b/c", ["pods"]⟩] : List APIResourceList) ≠ [] ∧
    GetAvailableResources ⟨[⟨"a/b/c", ["pods"]⟩], none⟩
      = Except.error "unexpected GroupVersion string: a/b/c" :=
  ⟨by simp, rfl⟩

/-- C2 amended witness: on a well-formed one-list resource map the result
is independent of the partial-failure error returned by discovery. -/
theorem getAvailableResources_error_iff_witness :
    GetAvailableResources ⟨[⟨"apps/v1", ["deployments"]⟩], some "partial discovery failure"⟩
      = GetAvailableResources ⟨[⟨"apps/v1", ["deployments"]⟩], none⟩ :=
  (getAvailableResources_error_iff [⟨"apps/v1", ["deployments"]⟩]
    (some "partial discovery failure") none
    (by intro l hl; rw [List.mem_singleton] at hl; subst hl
        exact ⟨⟨"apps", "v1"⟩, rfl⟩)).1

/-- C7: each closure invocation with minimum resync period d > 0 and a
random draw in [0,1) yields a duration in the half-open interval [d, 2d),
and distinct draws can yield distinct durations (the non-determinism across
invocations is intentional). -/
theorem resyncPeriod_range :
    (∀ (d : ℤ) (r : ℚ), 0 < d → 0 ≤ r → r < 1 →
      d ≤ ResyncPeriod d r ∧ ResyncPeriod d r < 2 * d) ∧
    (∃ r₁ r₂ : ℚ, 0 ≤ r₁ ∧ r₁ < 1 ∧ 0 ≤ r₂ ∧ r₂ < 1 ∧
      ResyncPeriod 2 r₁ ≠ ResyncPeriod 2 r₂) := by
  constructor
  · intro d r hd h0 h1
    have hdq : (0:ℚ) < (d:ℚ) := by exact_mod_cast hd
    have hnn : (0:ℚ) ≤ (d:ℚ) * (r + 1) := by nlinarith
    have ht : ResyncPeriod d r = Int.floor ((d:ℚ) * (r + 1)) := by
      rw [ResyncPeriod, truncQ, if_neg (not_lt.mpr hnn)]
    rw [ht]
    constructor
    · rw [Int.le_floor]
      nlinarith [mul_nonneg hdq.le h0]
    · rw [Int.floor_lt]
      push_cast
      nlinarith [mul_pos hdq (show (0:ℚ) < 1 - r by linarith)]
  · refine ⟨0, 1/2, by norm_num, by norm_num, by norm_num, by norm_num, ?_⟩
    have h1 : ResyncPeriod 2 0 = 2 := by
      rw [ResyncPeriod, truncQ]
      norm_num
    have h2 : ResyncPeriod 2 (1/2) = 3 := by
      rw [ResyncPeriod, truncQ]
      norm_num
    rw [h1, h2]
    omega

/-- C7 witness: with minimum period 4 and draw one half, the duration is in
[4, 8). -/
theorem resyncPeriod_range_witness :
    (4 : ℤ) ≤ ResyncPeriod 4 (1/2) ∧ ResyncPeriod 4 (1/2) < 2 * 4 :=
  resyncPeriod_range.1 4 (1/2) (by norm_num) (by norm_num) (by norm_num)

/-- C8: when a discovery call fails, `CreateControllerContext` returns that
error paired with the zero-value context (karmada-cluster discovery first,
host-cluster discovery second), and on every path a non-nil error comes
paired with the zero-value context — no partially-initialized context is
ever returned alongside an error. -/
theorem createControllerContext_atomic (en kn : String) (wk wf : Bool)
    (dk dh : DiscoveryInput) :
    (∀ e, wk = true → wf = true → GetAvailableResources dk = Except.error e →
      CreateControllerContext en kn wk wf dk dh = (zeroControllerContext, some e)) ∧
    (∀ e rs, wk = true → wf = true → GetAvailableResources dk = Except.ok rs →
      GetAvailableResources dh = Except.error e →
      CreateControllerContext en kn wk wf dk dh = (zeroControllerContext, some e)) ∧
    (∀ msg, (CreateControllerContext en kn wk wf dk dh).2 = some msg →
      (CreateControllerContext en kn wk wf dk dh).1 = zeroControllerContext) := by
  refine ⟨?_, ?_, ?_⟩
  · intro e hwk hwf he
    simp [CreateControllerContext, hwk, hwf, he]
  · intro e rs hwk hwf hok he
    simp [CreateControllerContext, hwk, hwf, hok, he]
  · intro msg h
    by_cases hwk : wk = false
    · simp [CreateControllerContext, hwk]
    · by_cases hwf : wf = false
      · simp [CreateControllerContext, hwk, hwf]
      · cases hk : GetAvailableResources dk with
        | error e => simp [CreateControllerContext, hwk, hwf, hk]
        | ok ar =>
          cases hh : GetAvailableResources dh with
          | error e => simp [CreateControllerContext, hwk, hwf, hk, hh]
          | ok hr =>
            simp [CreateControllerContext, hwk, hwf, hk, hh] at h

/-- C8 witness: with both waits healthy and a karmada discovery returning
an empty resource map, the constructor returns the zero context and the
discovery error. -/
theorem createControllerContext_atomic_witness :
    CreateControllerContext "ns" "demo" true true ⟨[], none⟩ ⟨[], none⟩
      = (zeroControllerContext, some "unable to get any supported resources from server") :=
  (createControllerContext_atomic "ns" "demo" true true ⟨[], none⟩ ⟨[], none⟩).1
    "unable to get any supported resources from server" rfl rfl rfl

/-! Argument validator lemmas. -/

/-- The validator loop accepts exactly the suffixes whose members all have
length zero. -/
theorem argsLoop_none_iff (cmdPath : String) (all : List String) :
    ∀ rest, (argsLoop cmdPath all rest = none ↔ ∀ a ∈ rest, a.length = 0) := by
  intro rest
  induction rest with
  | nil => simp [argsLoop]
  | cons a t ih =>
    constructor
    · intro h
      intro x hx
      by_cases ha : 0 < a.length
      · rw [argsLoop, if_pos ha] at h
        exact absurd h (by simp)
      · rcases List.mem_cons.mp hx with rfl | hx
        · omega
        · rw [argsLoop, if_neg ha] at h
          exact (ih.mp h) x hx
    · intro h
      have ha : ¬ 0 < a.length := by
        have := h a (List.mem_cons_self _ _)
        omega
      rw [argsLoop, if_neg ha]
      exact ih.mpr (fun x hx => h x (List.mem_cons_of_mem _ hx))

/-- The validator loop rejects any suffix holding an argument of positive
length, with the error naming the full original list. -/
theorem argsLoop_some (cmdPath : String) (all : List String) :
    ∀ rest, (∃ a ∈ rest, 0 < a.length) →
      argsLoop cmdPath all rest = some (argsErrMsg cmdPath all) := by
  intro rest
  induction rest with
  | nil =>
    rintro ⟨a, ha, _⟩
    simp at ha
  | cons a t ih =>
    rintro ⟨b, hb, hbl⟩
    by_cases ha : 0 < a.length
    · rw [argsLoop, if_pos ha]
    · rcases List.mem_cons.mp hb with rfl | hb
      · omega
      · rw [argsLoop, if_neg ha]
        exact ih ⟨b, hb, hbl⟩

/-- C9 amended: the Args validator returns nil exactly when every argument
is the empty string — not when the argument list is empty — and any
argument of positive length makes it return the error naming the command
path and the full argument list. -/
theorem commandArgsValidate_spec (cmdPath : String) (args : List String) :
    (commandArgsValidate cmdPath args = none ↔ ∀ a ∈ args, a.length = 0) ∧
    ((∃ a ∈ args, 0 < a.length) →
      commandArgsValidate cmdPath args = some (argsErrMsg cmdPath args)) :=
  ⟨argsLoop_none_iff cmdPath args args, fun h => argsLoop_some cmdPath args args h⟩

/-- C9 counterexample: the non-empty argument list holding one empty string
is accepted (nil error), refuting "for every non-empty argument list the
Args function returns an error". -/
theorem commandArgsValidate_counterexample :
    ([""] : List String) ≠ [] ∧
    commandArgsValidate "firefly-karmada-manager" [""] = none :=
  ⟨by simp, rfl⟩

/-- C9 amended witness: one non-empty positional argument is rejected with
the error naming the command path and the arguments. -/
theorem commandArgsValidate_spec_witness :
    commandArgsValidate "firefly-karmada-manager" ["extra"]
      = some (argsErrMsg "firefly-karmada-manager" ["extra"]) :=
  (commandArgsValidate_spec "firefly-karmada-manager" ["extra"]).2
    ⟨"extra", by simp, by decide⟩

/-- C10: the internal-storage dispatch gives Postgres precedence — a
Postgres spec with a Local section yields the `EnsurePostgres` result even
when a local MySQL is also configured; otherwise a MySQL spec with a Local
section yields the `EnsureMySQL` result; in every other case (including a
Postgres or MySQL spec without a Local section) the call returns the
"unknown storage type" error. -/
theorem ensureInternalStorage_dispatch (pgResult myResult : Option String)
    (cp : Clusterpedia) :
    (∀ pg u, cp.Spec.Storage.Postgres = some pg → pg.Local = some u →
      EnsureInternalStorage pgResult myResult cp = pgResult) ∧
    (hasLocalPostgres cp.Spec.Storage = false →
      ∀ my u, cp.Spec.Storage.MySQL = some my → my.Local = some u →
      EnsureInternalStorage pgResult myResult cp = myResult) ∧
    (hasLocalPostgres cp.Spec.Storage = false → hasLocalMySQL cp.Spec.Storage = false →
      EnsureInternalStorage pgResult myResult cp = some "unknown storage type") := by
  refine ⟨?_, ?_, ?_⟩
  · intro pg u hpg hl
    have h1 : hasLocalPostgres cp.Spec.Storage = true := by
      simp [hasLocalPostgres, hpg, hl]
    simp [EnsureInternalStorage, h1]
  · intro h1 my u hmy hl
    have h2 : hasLocalMySQL cp.Spec.Storage = true := by
      simp [hasLocalMySQL, hmy, hl]
    simp [EnsureInternalStorage, h1, h2]
  · intro h1 h2
    simp [EnsureInternalStorage, h1, h2]

/-- C10 witness: with both a local Postgres and a local MySQL configured,
the dispatch returns the `EnsurePostgres` result. -/
theorem ensureInternalStorage_dispatch_witness :
    EnsureInternalStorage (some "postgres applied") (some "mysql applied")
      ⟨⟨⟨some ⟨some ()⟩, some ⟨some ()⟩⟩⟩⟩ = some "postgres applied" :=
  (ensureInternalStorage_dispatch (some "postgres applied") (some "mysql applied")
    ⟨⟨⟨some ⟨some ()⟩, some ⟨some ()⟩⟩⟩⟩).1 ⟨some ()⟩ () rfl rfl

end Firefly
